import Mathlib

/-!
Verification of the catalyst-stats-action repository: a CI-time utility that
triggers a remote background job over HTTP, polls a status endpoint until the
job reports completion, fetches the full proposals payload, transforms it and
writes it to a file.  The definitions below are a shallow embedding of the
TypeScript source (the complete two-endpoint, query-encoded variant, plus the
body-encoded variant from the simpler copies); theorems settle the frozen
claims about that source.
-/

/-- JSON-style runtime values, as produced by `JSON.parse` and manipulated by
the script.  Numbers are modelled as integers (all claims involve integral
values only). -/
inductive JSValue where
  | undefined : JSValue
  | null : JSValue
  | bool : Bool → JSValue
  | num : Int → JSValue
  | str : String → JSValue
  | arr : List JSValue → JSValue
  | obj : List (String × JSValue) → JSValue

/-- JavaScript truthiness of a value (falsy: `undefined`, `null`, `false`,
`0`, the empty string; arrays and objects are always truthy). -/
def truthy : JSValue → Bool
  | .undefined => false
  | .null => false
  | .bool b => b
  | .num n => n != 0
  | .str s => s != ""
  | .arr _ => true
  | .obj _ => true

/-- First-match lookup of a key in an object's field list; a missing key reads
as `undefined`, as in JavaScript. -/
def lookupKey : List (String × JSValue) → String → JSValue
  | [], _ => .undefined
  | (k, v) :: rest, key => if k == key then v else lookupKey rest key

/-- JavaScript property read `v.key`: on an object it is field lookup, on
`null`/`undefined` it throws a `TypeError` (modelled as `Except.error`), on
any other primitive or array it reads as `undefined`. -/
def getField : JSValue → String → Except String JSValue
  | .undefined, key => .error ("TypeError: cannot read " ++ key)
  | .null, key => .error ("TypeError: cannot read " ++ key)
  | .obj fields, key => .ok (lookupKey fields key)
  | _, _ => .ok .undefined

/-- Strict equality `v === lit` between a runtime value and a string
literal. -/
def strictEqStr (v : JSValue) (lit : String) : Bool :=
  match v with
  | .str s => s == lit
  | _ => false

/-- Strict equality `v === true` between a runtime value and the boolean
literal `true`. -/
def strictEqTrue (v : JSValue) : Bool :=
  match v with
  | .bool b => b
  | _ => false

/-- The body of an HTTP response as the script distinguishes it: empty (or
whitespace-only) text, text that parses as JSON to a value, or text that
fails `JSON.parse`. -/
inductive Body where
  | empty : Body
  | json : JSValue → Body
  | nonJson : String → Body

/-- Outcome of one `fetch` call: the promise rejects with a network error, or
a response arrives with a numeric status, a status text and a body. -/
inductive FetchResult where
  | fail : String → FetchResult
  | resp : Nat → String → Body → FetchResult

/-- `response.ok`: HTTP status in the 2xx range. -/
def respOk (status : Nat) : Bool := 200 ≤ status && status ≤ 299

/-- `makeRequest` from the source: throws on a rejected fetch, throws
`HTTP <status>: <statusText>` on a non-2xx response, returns the stub object
`{success: true, message: 'Empty response'}` on an empty body, returns the
parsed value on a JSON body, and returns the stub object
`{success: true, message: 'Non-JSON response', raw: text}` when parsing
fails. -/
def makeRequest : FetchResult → Except String JSValue
  | .fail msg => .error msg
  | .resp status statusText body =>
    if respOk status then
      match body with
      | .empty => .ok (JSValue.obj [("success", JSValue.bool true), ("message", JSValue.str "Empty response")])
      | .json v => .ok v
      | .nonJson raw => .ok (JSValue.obj [("success", JSValue.bool true), ("message", JSValue.str "Non-JSON response"), ("raw", JSValue.str raw)])
    else .error ("HTTP " ++ toString status ++ ": " ++ statusText)

/-- The completion check of `pollUntilComplete`:
`statusData.hasData && (statusData.status === 'completed' || statusData.status === 'partial')`,
with JavaScript evaluation order and short-circuiting; a thrown `TypeError`
from a property read surfaces as `Except.error`. -/
def statusIndicatesCompletion (statusData : JSValue) : Except String Bool := do
  let h ← getField statusData "hasData"
  if truthy h then
    let s ← getField statusData "status"
    pure (strictEqStr s "completed" || strictEqStr s "partial")
  else
    pure false

/-- The environment a polling run interacts with: the fetch outcome of the
status call and of the proposals call at each attempt index. -/
structure PollEnv where
  statusFetch : Nat → FetchResult
  proposalsFetch : Nat → FetchResult

/-- Observable events of a polling run: an HTTP call to the status endpoint,
an HTTP call to the proposals endpoint, or a sleep of the given number of
milliseconds. -/
inductive Ev where
  | statusCall : Ev
  | proposalsCall : Ev
  | sleepMs : Nat → Ev

/-- The body of the `try` block of one polling attempt: request the status,
evaluate the completion check, and on completion request the proposals and
read their `proposals` field.  Returns the events of the attempt plus either
a thrown error, `none` (no completion, fall through to the sleep) or
`some proposals` (the attempt returns). -/
def pollAttempt (env : PollEnv) (attempt : Nat) : List Ev × Except String (Option JSValue) :=
  match makeRequest (env.statusFetch attempt) with
  | .error e => ([Ev.statusCall], .error e)
  | .ok statusData =>
    match statusIndicatesCompletion statusData with
    | .error e => ([Ev.statusCall], .error e)
    | .ok true =>
      match makeRequest (env.proposalsFetch attempt) with
      | .error e => ([Ev.statusCall, Ev.proposalsCall], .error e)
      | .ok proposalsData =>
        match getField proposalsData "proposals" with
        | .error e => ([Ev.statusCall, Ev.proposalsCall], .error e)
        | .ok props => ([Ev.statusCall, Ev.proposalsCall], .ok (some props))
    | .ok false => ([Ev.statusCall], .ok none)

/-- Error message thrown when the final attempt's `catch` handler fires. -/
def timedOutAllMsg : String := "Polling timed out after all attempts."

/-- Error message thrown after the `for` loop exhausts all attempts. -/
def timedOutMsg : String := "Polling timed out."

/-- The `for (let attempt = 0; attempt < maxRetries; attempt++)` loop of
`pollUntilComplete`, with `remaining = maxRetries - attempt` as fuel.  On a
returning attempt the loop exits with the proposals; on a non-completing
attempt it sleeps and continues; on a thrown error it rethrows the timeout
error if `attempt === maxRetries - 1` and otherwise sleeps and continues;
falling off the loop throws `Polling timed out.`. -/
def pollLoop (env : PollEnv) (interval : Nat) (maxRetries : Nat) :
    Nat → Nat → List Ev × Except String JSValue
  | 0, _ => ([], .error timedOutMsg)
  | remaining + 1, attempt =>
    match pollAttempt env attempt with
    | (evs, .ok (some props)) => (evs, .ok props)
    | (evs, .ok none) =>
      let next := pollLoop env interval maxRetries remaining (attempt + 1)
      (evs ++ Ev.sleepMs interval :: next.1, next.2)
    | (evs, .error _) =>
      if attempt == maxRetries - 1 then
        (evs, .error timedOutAllMsg)
      else
        let next := pollLoop env interval maxRetries remaining (attempt + 1)
        (evs ++ Ev.sleepMs interval :: next.1, next.2)

/-- `pollUntilComplete(ids, maxRetries, interval)`: run the polling loop from
attempt 0, recording its events and its result (the returned proposals or the
thrown error). -/
def pollUntilComplete (env : PollEnv) (maxRetries : Nat) (interval : Nat) :
    List Ev × Except String JSValue :=
  pollLoop env interval maxRetries maxRetries 0

/-- Default `maxRetries` of `pollUntilComplete`. -/
def defaultMaxRetries : Nat := 30

/-- Default polling `interval` of `pollUntilComplete`, in milliseconds. -/
def defaultInterval : Nat := 10000

/-- The milestone-completion extraction of `transformData`:
`project.milestones_completed || project.completed_milestones || 0`, with
JavaScript short-circuit evaluation of `||` over truthiness. -/
def milestonesCompletedOf (project : JSValue) : Except String JSValue := do
  let a ← getField project "milestones_completed"
  if truthy a then
    pure a
  else
    let b ← getField project "completed_milestones"
    if truthy b then pure b else pure (JSValue.num 0)

/-- The `projectDetails` object literal of `transformData`: the enumerated
subset of the raw record's fields, in source order. -/
def projectDetailsOf (project : JSValue) : Except String (List (String × JSValue)) := do
  let idv ← getField project "id"
  let titlev ← getField project "title"
  let budgetv ← getField project "budget"
  let mqv ← getField project "milestones_qty"
  let fdv ← getField project "funds_distributed"
  let pidv ← getField project "project_id"
  let chv ← getField project "challenges"
  let namev ← getField project "name"
  let catv ← getField project "category"
  let urlv ← getField project "url"
  let stv ← getField project "status"
  let finv ← getField project "finished"
  let votv ← getField project "voting"
  pure [("id", idv), ("title", titlev), ("budget", budgetv),
        ("milestones_qty", mqv), ("funds_distributed", fdv),
        ("project_id", pidv), ("challenges", chv), ("name", namev),
        ("category", catv), ("url", urlv), ("status", stv),
        ("finished", finv), ("voting", votv)]

/-- One normalized output record. -/
structure TransformedProject where
  projectDetails : List (String × JSValue)
  milestonesCompleted : JSValue

/-- The normalized output document. -/
structure TransformedData where
  timestamp : String
  projects : List TransformedProject

/-- The mapping applied to each raw record by `transformData`'s
`rawData.map(...)` callback. -/
def transformProject (project : JSValue) : Except String TransformedProject := do
  let mc ← milestonesCompletedOf project
  let details ← projectDetailsOf project
  pure ⟨details, mc⟩

/-- `rawData.map(project => ...)`: each record is transformed in order; a
thrown `TypeError` aborts the whole map. -/
def transformList : List JSValue → Except String (List TransformedProject)
  | [] => .ok []
  | project :: rest => do
    let tp ← transformProject project
    let tl ← transformList rest
    pure (tp :: tl)

/-- `transformData(rawData)`: the timestamp is the wall-clock time observed by
`new Date().toISOString()` at the moment of the call, passed here as the
`timestamp` argument; the `projects` field is the per-record map. -/
def transformData (timestamp : String) (rawData : List JSValue) :
    Except String TransformedData := do
  let projects ← transformList rawData
  pure ⟨timestamp, projects⟩

/-- Coercion `rawResults as any[]` followed by `.map`: calling `.map` on a
non-array throws a `TypeError`. -/
def asArray : JSValue → Except String (List JSValue)
  | .arr items => .ok items
  | _ => .error "TypeError: rawResults.map is not a function"

/-- Observable events of a whole run of `main`: the trigger call, the events
of the polling phase, and the output-file write. -/
inductive MEv where
  | triggerCall : MEv
  | pollEv : Ev → MEv
  | writeFile : MEv

/-- Outcome of a run of `main`: a `process.exit` with the given code, or a
normal finish having written the given document. -/
inductive MainOutcome where
  | exitCode : Nat → MainOutcome
  | finished : TransformedData → MainOutcome

/-- The environment a run of `main` interacts with: the outcome of the single
trigger fetch, the polling environment, the wall-clock timestamp observed at
transform time, and whether the directory creation and file write succeed. -/
structure MainEnv where
  triggerFetch : FetchResult
  poll : PollEnv
  timestamp : String
  writeSucceeds : Bool

/-- `main` from the source (named `runMain` since `main` is reserved in Lean):
one trigger request (a failure exits with code 1 inside the
`catch`, after the `functionResponse.success` read, which can itself throw);
then `pollUntilComplete` with the default retry count and interval (an error
propagates to `main().catch`, exit code 1); then `transformData` on the raw
results coerced to an array (a `TypeError` also reaches `main().catch`);
then the file write (a failure exits with code 1). -/
def runMain (env : MainEnv) : List MEv × MainOutcome :=
  match makeRequest env.triggerFetch with
  | .error _ => ([MEv.triggerCall], .exitCode 1)
  | .ok functionResponse =>
    match getField functionResponse "success" with
    | .error _ => ([MEv.triggerCall], .exitCode 1)
    | .ok _ =>
      let polled := pollUntilComplete env.poll defaultMaxRetries defaultInterval
      let evs := MEv.triggerCall :: polled.1.map MEv.pollEv
      match polled.2 with
      | .error _ => (evs, .exitCode 1)
      | .ok rawResults =>
        match (do
            let items ← asArray rawResults
            transformData env.timestamp items : Except String TransformedData) with
        | .error _ => (evs, .exitCode 1)
        | .ok doc =>
          if env.writeSucceeds then
            (evs ++ [MEv.writeFile], .finished doc)
          else
            (evs ++ [MEv.writeFile], .exitCode 1)

/-- A code point the ECMAScript `encodeURIComponent` leaves unescaped:
`A-Z a-z 0-9 - _ . ! ~ * ' ( )`. -/
def isUnreservedURI (c : Char) : Bool :=
  let n := c.toNat
  (48 ≤ n && n ≤ 57) || (65 ≤ n && n ≤ 90) || (97 ≤ n && n ≤ 122) ||
  n == 45 || n == 95 || n == 46 || n == 33 || n == 126 || n == 42 ||
  n == 39 || n == 40 || n == 41

/-- Uppercase hexadecimal digit for a value below 16. -/
def hexDigit (n : Nat) : Char :=
  if n < 10 then Char.ofNat (48 + n) else Char.ofNat (55 + n)

/-- Value of a hexadecimal digit character (both cases accepted). -/
def hexVal (c : Char) : Option Nat :=
  if 48 ≤ c.toNat ∧ c.toNat ≤ 57 then some (c.toNat - 48)
  else if 65 ≤ c.toNat ∧ c.toNat ≤ 70 then some (c.toNat - 55)
  else if 97 ≤ c.toNat ∧ c.toNat ≤ 102 then some (c.toNat - 87)
  else none

/-- UTF-8 encoding of a Unicode code point as a byte list. -/
def utf8Bytes (n : Nat) : List Nat :=
  if n < 128 then [n]
  else if n < 2048 then [192 + n / 64, 128 + n % 64]
  else if n < 65536 then [224 + n / 4096, 128 + n / 64 % 64, 128 + n % 64]
  else [240 + n / 262144, 128 + n / 4096 % 64, 128 + n / 64 % 64, 128 + n % 64]

/-- Percent-escape of one byte: `%` followed by two uppercase hex digits. -/
def percentByte (b : Nat) : List Char :=
  [Char.ofNat 37, hexDigit (b / 16), hexDigit (b % 16)]

/-- Percent-escape of a byte sequence. -/
def percentEncodeBytes : List Nat → List Char
  | [] => []
  | b :: rest => percentByte b ++ percentEncodeBytes rest

/-- `encodeURIComponent` on one character: unreserved characters stand for
themselves, every other character becomes the percent-escape of its UTF-8
bytes. -/
def encodeChar (c : Char) : List Char :=
  if isUnreservedURI c then [c] else percentEncodeBytes (utf8Bytes c.toNat)

/-- `encodeURIComponent` on a character list. -/
def encodeList : List Char → List Char
  | [] => []
  | c :: rest => encodeChar c ++ encodeList rest

/-- Model of the ECMAScript builtin `encodeURIComponent`, used by the source
to place the comma-separated project-ID string in a query parameter. -/
def encodeURIComponent (s : String) : String :=
  String.mk (encodeList s.data)

/-- Byte stream denoted by a percent-encoded character list: a `%HH` escape
denotes one byte, any other character denotes its own UTF-8 bytes; a
malformed escape is a decoding error. -/
def percentDecodeBytes : List Char → Option (List Nat)
  | [] => some []
  | c :: rest =>
    if c.toNat == 37 then
      match rest with
      | h1 :: h2 :: rest2 =>
        match hexVal h1, hexVal h2 with
        | some a, some b =>
          match percentDecodeBytes rest2 with
          | some bs => some ((16 * a + b) :: bs)
          | none => none
        | _, _ => none
      | _ => none
    else
      match percentDecodeBytes rest with
      | some bs => some (utf8Bytes c.toNat ++ bs)
      | none => none

/-- UTF-8 decoding of a byte stream, one byte at a time: `pending` is the
partially decoded code point, `needed` the number of continuation bytes still
expected, `acc` the code points decoded so far (reversed); malformed
sequences are a decoding error. -/
def utf8Run (acc : List Nat) (pending : Nat) (needed : Nat) : List Nat → Option (List Nat)
  | [] => if needed = 0 then some acc.reverse else none
  | b :: rest =>
    if needed = 0 then
      if b < 128 then utf8Run (b :: acc) 0 0 rest
      else if b < 192 then none
      else if b < 224 then utf8Run acc (b - 192) 1 rest
      else if b < 240 then utf8Run acc (b - 224) 2 rest
      else if b < 248 then utf8Run acc (b - 240) 3 rest
      else none
    else
      if 128 ≤ b ∧ b < 192 then
        if needed = 1 then utf8Run ((pending * 64 + (b - 128)) :: acc) 0 0 rest
        else utf8Run acc (pending * 64 + (b - 128)) (needed - 1) rest
      else none

/-- UTF-8 decoding of a byte list into code points. -/
def utf8Decode (bs : List Nat) : Option (List Nat) := utf8Run [] 0 0 bs

/-- Model of the ECMAScript builtin `decodeURIComponent`: percent-decode to a
byte stream, then UTF-8 decode it back to characters. -/
def decodeURIComponent (s : String) : Option String :=
  match percentDecodeBytes s.data with
  | none => none
  | some bs =>
    match utf8Decode bs with
    | none => none
    | some cps => some (String.mk (cps.map Char.ofNat))

/-- Hardcoded trigger endpoint of the source. -/
def triggerUrl : String :=
  "https://glittering-chebakia-09bd42.netlify.app/.netlify/functions/catalyst-proposals-background"

/-- The trigger URL built by `main`:
`` `${triggerUrl}?projectIds=${encodeURIComponent(projectIds)}` ``. -/
def triggerUrlWithParams (ids : String) : String :=
  triggerUrl ++ "?projectIds=" ++ encodeURIComponent ids

/-- The body-encoded variant's trigger payload field:
`{ projectIds: projectIds.split(',') }`. -/
def triggerBodyProjectIds (ids : String) : List String :=
  ids.splitOn ","

/-- Number of status-endpoint calls in an event trace. -/
def statusCount : List Ev → Nat
  | [] => 0
  | Ev.statusCall :: rest => statusCount rest + 1
  | _ :: rest => statusCount rest

/-- Number of sleeps in an event trace. -/
def sleepCount : List Ev → Nat
  | [] => 0
  | Ev.sleepMs _ :: rest => sleepCount rest + 1
  | _ :: rest => sleepCount rest

/-- Total milliseconds slept in an event trace. -/
def sleepTotal : List Ev → Nat
  | [] => 0
  | Ev.sleepMs ms :: rest => ms + sleepTotal rest
  | _ :: rest => sleepTotal rest

/-- Every sleep in the trace has the given duration. -/
def sleepsAre (ms : Nat) : List Ev → Bool
  | [] => true
  | Ev.sleepMs m :: rest => m == ms && sleepsAre ms rest
  | _ :: rest => sleepsAre ms rest

/-- The trace restricted to status calls and sleeps. -/
def keepStatusSleep : List Ev → List Ev
  | [] => []
  | Ev.proposalsCall :: rest => keepStatusSleep rest
  | e :: rest => e :: keepStatusSleep rest

/-- Strict alternation check: with the flag `true` the next status/sleep
event must be a status call, with `false` it must be a sleep; the list may
end at any point.  `altCheck true` on a status/sleep trace states that it
starts with a status call and has exactly one sleep between consecutive
status calls. -/
def altCheck : Bool → List Ev → Bool
  | _, [] => true
  | true, Ev.statusCall :: rest => altCheck false rest
  | false, Ev.sleepMs _ :: rest => altCheck true rest
  | _, _ => false

/-- Number of trigger-endpoint calls in a `runMain` trace. -/
def triggerCount : List MEv → Nat
  | [] => 0
  | MEv.triggerCall :: rest => triggerCount rest + 1
  | _ :: rest => triggerCount rest

/-- The completion predicate exactly as the spec words it, for comparison
with the source's `statusIndicatesCompletion`: the `hasData` field is
strictly `=== true` and the `status` field is `completed` or `partial`. -/
def specCompletionStrict (v : JSValue) : Bool :=
  match getField v "hasData", getField v "status" with
  | .ok h, .ok s => strictEqTrue h && (strictEqStr s "completed" || strictEqStr s "partial")
  | _, _ => false

/-- A polling environment whose status endpoint always reports
`hasData: true, status: "partial"` and whose proposals endpoint always
returns `{proposals: []}`. -/
def pollEnvPartial : PollEnv :=
  ⟨fun _ => FetchResult.resp 200 "OK"
      (Body.json (JSValue.obj [("hasData", JSValue.bool true), ("status", JSValue.str "partial")])),
   fun _ => FetchResult.resp 200 "OK"
      (Body.json (JSValue.obj [("proposals", JSValue.arr [])]))⟩

/-- A polling environment whose status endpoint always returns a 2xx response
with `hasData: false`. -/
def pollEnvPending : PollEnv :=
  ⟨fun _ => FetchResult.resp 200 "OK" (Body.json (JSValue.obj [("hasData", JSValue.bool false)])),
   fun _ => FetchResult.fail "network down"⟩

/-- A polling environment in which every fetch fails with a network error. -/
def pollEnvFailing : PollEnv :=
  ⟨fun _ => FetchResult.fail "ECONNREFUSED", fun _ => FetchResult.fail "ECONNREFUSED"⟩

/-- A polling environment whose status endpoint always reports
`hasData: true, status: "completed"` and whose proposals endpoint always
returns `{proposals: []}`. -/
def pollEnvCompleted : PollEnv :=
  ⟨fun _ => FetchResult.resp 200 "OK"
      (Body.json (JSValue.obj [("hasData", JSValue.bool true), ("status", JSValue.str "completed")])),
   fun _ => FetchResult.resp 200 "OK"
      (Body.json (JSValue.obj [("proposals", JSValue.arr [])]))⟩

/-- A polling environment whose status endpoint completes immediately but
whose proposals endpoint always fails. -/
def pollEnvPropsFail : PollEnv :=
  ⟨fun _ => FetchResult.resp 200 "OK"
      (Body.json (JSValue.obj [("hasData", JSValue.bool true), ("status", JSValue.str "completed")])),
   fun _ => FetchResult.fail "proposals down"⟩

/-- A main environment whose trigger request receives HTTP 500. -/
def mainEnvTriggerFail : MainEnv :=
  ⟨FetchResult.resp 500 "Internal Server Error" Body.empty, pollEnvFailing, "t", true⟩

/-- The field names retained in `projectDetails`, in source order. -/
def projectDetailKeys : List String :=
  ["id", "title", "budget", "milestones_qty", "funds_distributed", "project_id",
   "challenges", "name", "category", "url", "status", "finished", "voting"]

/-- A raw record with `milestones_completed: 3` and no `completed_milestones`. -/
def sampleRecord : JSValue :=
  JSValue.obj [("id", JSValue.num 1), ("title", JSValue.str "A"),
               ("milestones_completed", JSValue.num 3)]

/-- The normalized record produced from `sampleRecord`. -/
def sampleTransformed : TransformedProject :=
  ⟨[("id", JSValue.num 1), ("title", JSValue.str "A"), ("budget", JSValue.undefined),
    ("milestones_qty", JSValue.undefined), ("funds_distributed", JSValue.undefined),
    ("project_id", JSValue.undefined), ("challenges", JSValue.undefined),
    ("name", JSValue.undefined), ("category", JSValue.undefined), ("url", JSValue.undefined),
    ("status", JSValue.undefined), ("finished", JSValue.undefined),
    ("voting", JSValue.undefined)],
   JSValue.num 3⟩

/-- The UTF-8 byte stream of a character list. -/
def utf8OfChars : List Char → List Nat
  | [] => []
  | c :: rest => utf8Bytes c.toNat ++ utf8OfChars rest

theorem statusCount_append (l1 l2 : List Ev) :
    statusCount (l1 ++ l2) = statusCount l1 + statusCount l2 := by
  induction l1 with
  | nil => simp [statusCount]
  | cons e rest ih =>
    cases e <;> simp [statusCount, ih]
    all_goals omega

theorem sleepCount_append (l1 l2 : List Ev) :
    sleepCount (l1 ++ l2) = sleepCount l1 + sleepCount l2 := by
  induction l1 with
  | nil => simp [sleepCount]
  | cons e rest ih =>
    cases e <;> simp [sleepCount, ih]
    all_goals omega

theorem sleepTotal_append (l1 l2 : List Ev) :
    sleepTotal (l1 ++ l2) = sleepTotal l1 + sleepTotal l2 := by
  induction l1 with
  | nil => simp [sleepTotal]
  | cons e rest ih =>
    cases e <;> simp [sleepTotal, ih]
    all_goals omega

theorem sleepsAre_append (ms : Nat) (l1 l2 : List Ev) :
    sleepsAre ms (l1 ++ l2) = (sleepsAre ms l1 && sleepsAre ms l2) := by
  induction l1 with
  | nil => simp [sleepsAre]
  | cons e rest ih => cases e <;> simp [sleepsAre, ih, Bool.and_assoc]

theorem keepStatusSleep_append (l1 l2 : List Ev) :
    keepStatusSleep (l1 ++ l2) = keepStatusSleep l1 ++ keepStatusSleep l2 := by
  induction l1 with
  | nil => simp [keepStatusSleep]
  | cons e rest ih => cases e <;> simp [keepStatusSleep, ih]

theorem sleepTotal_of_sleepsAre (ms : Nat) (l : List Ev) (h : sleepsAre ms l = true) :
    sleepTotal l = sleepCount l * ms := by
  induction l with
  | nil => simp [sleepTotal, sleepCount]
  | cons e rest ih =>
    cases e with
    | statusCall => simp [sleepsAre] at h; simp [sleepTotal, sleepCount, ih h]
    | proposalsCall => simp [sleepsAre] at h; simp [sleepTotal, sleepCount, ih h]
    | sleepMs m =>
      simp [sleepsAre] at h
      obtain ⟨h1, h2⟩ := h
      simp [sleepTotal, sleepCount, ih h2, h1, Nat.succ_mul]
      omega

theorem pollAttempt_shape (env : PollEnv) (a : Nat) :
    (pollAttempt env a).1 = [Ev.statusCall] ∨
    (pollAttempt env a).1 = [Ev.statusCall, Ev.proposalsCall] := by
  unfold pollAttempt
  rcases makeRequest (env.statusFetch a) with e | sd
  · simp
  · rcases h : statusIndicatesCompletion sd with e | b
    · simp [h]
    · cases b
      · simp [h]
      · rcases h2 : makeRequest (env.proposalsFetch a) with e | pd
        · simp [h, h2]
        · rcases h3 : getField pd "proposals" with e | props
          · simp [h, h2, h3]
          · simp [h, h2, h3]

theorem pollAttempt_head (env : PollEnv) (a : Nat) :
    (pollAttempt env a).1.head? = some Ev.statusCall := by
  rcases pollAttempt_shape env a with h | h <;> rw [h] <;> rfl

theorem pollLoop_return (env : PollEnv) (i mr r a : Nat) (evs : List Ev) (props : JSValue)
    (h : pollAttempt env a = (evs, .ok (some props))) :
    pollLoop env i mr (r + 1) a = (evs, .ok props) := by
  unfold pollLoop
  rw [h]

theorem pollLoop_continue (env : PollEnv) (i mr r a : Nat) (evs : List Ev)
    (h : pollAttempt env a = (evs, .ok none)) :
    pollLoop env i mr (r + 1) a =
      (evs ++ Ev.sleepMs i :: (pollLoop env i mr r (a + 1)).1,
       (pollLoop env i mr r (a + 1)).2) := by
  conv_lhs => rw [pollLoop, h]

theorem pollLoop_error_final (env : PollEnv) (i mr r a : Nat) (evs : List Ev) (e : String)
    (h : pollAttempt env a = (evs, .error e)) (hf : a = mr - 1) :
    pollLoop env i mr (r + 1) a = (evs, .error timedOutAllMsg) := by
  unfold pollLoop
  rw [h]
  simp [hf]

theorem pollLoop_error_nonfinal (env : PollEnv) (i mr r a : Nat) (evs : List Ev) (e : String)
    (h : pollAttempt env a = (evs, .error e)) (hf : a ≠ mr - 1) :
    pollLoop env i mr (r + 1) a =
      (evs ++ Ev.sleepMs i :: (pollLoop env i mr r (a + 1)).1,
       (pollLoop env i mr r (a + 1)).2) := by
  conv_lhs => rw [pollLoop, h]
  simp [hf]

theorem pollLoop_head (env : PollEnv) (i mr r a : Nat) :
    (pollLoop env i mr (r + 1) a).1.head? = some Ev.statusCall := by
  rcases h : pollAttempt env a with ⟨evs, res⟩
  rcases pollAttempt_shape env a with hs | hs <;> rw [h] at hs <;> subst hs <;>
    rcases res with e | (_ | props)
  · by_cases hf : a = mr - 1
    · rw [pollLoop_error_final env i mr r a _ e h hf]
      rfl
    · rw [pollLoop_error_nonfinal env i mr r a _ e h hf]
      rfl
  · rw [pollLoop_continue env i mr r a _ h]
    rfl
  · rw [pollLoop_return env i mr r a _ props h]
    rfl
  · by_cases hf : a = mr - 1
    · rw [pollLoop_error_final env i mr r a _ e h hf]
      rfl
    · rw [pollLoop_error_nonfinal env i mr r a _ e h hf]
      rfl
  · rw [pollLoop_continue env i mr r a _ h]
    rfl
  · rw [pollLoop_return env i mr r a _ props h]
    rfl

theorem pollLoop_trace (env : PollEnv) (i mr : Nat) :
    ∀ r a,
      statusCount (pollLoop env i mr r a).1 ≤ r ∧
      sleepsAre i (pollLoop env i mr r a).1 = true ∧
      altCheck true (keepStatusSleep (pollLoop env i mr r a).1) = true ∧
      statusCount (pollLoop env i mr r a).1 ≤ sleepCount (pollLoop env i mr r a).1 + 1 := by
  intro r
  induction r with
  | zero =>
    intro a
    simp [pollLoop, statusCount, sleepsAre, keepStatusSleep, altCheck, sleepCount]
  | succ r ih =>
    intro a
    rcases h : pollAttempt env a with ⟨evs, res⟩
    have hshape := pollAttempt_shape env a
    rw [h] at hshape
    have hterm : statusCount evs = 1 ∧ sleepsAre i evs = true ∧
        altCheck true (keepStatusSleep evs) = true ∧ sleepCount evs = 0 := by
      rcases hshape with hs | hs <;> subst hs <;>
        simp [statusCount, sleepsAre, keepStatusSleep, altCheck, sleepCount]
    have hstep : ∀ l : List Ev,
        statusCount l ≤ r → sleepsAre i l = true →
        altCheck true (keepStatusSleep l) = true →
        statusCount l ≤ sleepCount l + 1 →
        statusCount (evs ++ Ev.sleepMs i :: l) ≤ r + 1 ∧
        sleepsAre i (evs ++ Ev.sleepMs i :: l) = true ∧
        altCheck true (keepStatusSleep (evs ++ Ev.sleepMs i :: l)) = true ∧
        statusCount (evs ++ Ev.sleepMs i :: l) ≤ sleepCount (evs ++ Ev.sleepMs i :: l) + 1 := by
      intro l h1 h2 h3 h4
      rcases hshape with hs | hs <;> subst hs <;>
        simp [statusCount_append, sleepsAre_append, keepStatusSleep_append,
              sleepCount_append, statusCount, sleepsAre, keepStatusSleep,
              sleepCount, altCheck, h2, h3] <;> omega
    rcases res with e | op
    · by_cases hf : a = mr - 1
      · rw [pollLoop_error_final env i mr r a _ e h hf]
        show statusCount evs ≤ r + 1 ∧ sleepsAre i evs = true ∧
            altCheck true (keepStatusSleep evs) = true ∧
            statusCount evs ≤ sleepCount evs + 1
        obtain ⟨t1, t2, t3, t4⟩ := hterm
        exact ⟨by omega, t2, t3, by omega⟩
      · rw [pollLoop_error_nonfinal env i mr r a _ e h hf]
        obtain ⟨i1, i2, i3, i4⟩ := ih (a + 1)
        exact hstep _ i1 i2 i3 i4
    · rcases op with _ | props
      · rw [pollLoop_continue env i mr r a _ h]
        obtain ⟨i1, i2, i3, i4⟩ := ih (a + 1)
        exact hstep _ i1 i2 i3 i4
      · rw [pollLoop_return env i mr r a _ props h]
        show statusCount evs ≤ r + 1 ∧ sleepsAre i evs = true ∧
            altCheck true (keepStatusSleep evs) = true ∧
            statusCount evs ≤ sleepCount evs + 1
        obtain ⟨t1, t2, t3, t4⟩ := hterm
        exact ⟨by omega, t2, t3, by omega⟩

theorem statusIndicatesCompletion_iff (v : JSValue) :
    statusIndicatesCompletion v = .ok true ↔
      ∃ h s, getField v "hasData" = .ok h ∧ truthy h = true ∧
        getField v "status" = .ok s ∧
        (strictEqStr s "completed" = true ∨ strictEqStr s "partial" = true) := by
  cases v with
  | undefined => simp [statusIndicatesCompletion, getField, Bind.bind, Except.bind]
  | null => simp [statusIndicatesCompletion, getField, Bind.bind, Except.bind]
  | bool b =>
    simp [statusIndicatesCompletion, getField, Bind.bind, Except.bind, truthy, pure, Except.pure]
  | num n =>
    simp [statusIndicatesCompletion, getField, Bind.bind, Except.bind, truthy, pure, Except.pure]
  | str s =>
    simp [statusIndicatesCompletion, getField, Bind.bind, Except.bind, truthy, pure, Except.pure]
  | arr items =>
    simp [statusIndicatesCompletion, getField, Bind.bind, Except.bind, truthy, pure, Except.pure]
  | obj fields =>
    by_cases ht : truthy (lookupKey fields "hasData") = true
    · simp [statusIndicatesCompletion, getField, Bind.bind, Except.bind, ht, pure, Except.pure]
    · simp [statusIndicatesCompletion, getField, Bind.bind, Except.bind, ht, pure, Except.pure]

theorem pollAttempt_of_complete (env : PollEnv) (a : Nat) (v p props : JSValue)
    (h1 : makeRequest (env.statusFetch a) = .ok v)
    (h2 : statusIndicatesCompletion v = .ok true)
    (h3 : makeRequest (env.proposalsFetch a) = .ok p)
    (h4 : getField p "proposals" = .ok props) :
    pollAttempt env a = ([Ev.statusCall, Ev.proposalsCall], .ok (some props)) := by
  unfold pollAttempt
  simp only [h1, h2, h3, h4]

theorem pollAttempt_proposals_error (env : PollEnv) (a : Nat) (v : JSValue) (e : String)
    (h1 : makeRequest (env.statusFetch a) = .ok v)
    (h2 : statusIndicatesCompletion v = .ok true)
    (h3 : makeRequest (env.proposalsFetch a) = .error e) :
    pollAttempt env a = ([Ev.statusCall, Ev.proposalsCall], .error e) := by
  unfold pollAttempt
  simp only [h1, h2, h3]

theorem pollAttempt_not_complete (env : PollEnv) (a : Nat) (v : JSValue)
    (h1 : makeRequest (env.statusFetch a) = .ok v)
    (h2 : ¬statusIndicatesCompletion v = .ok true) :
    ∀ props, (pollAttempt env a).2 ≠ .ok (some props) := by
  intro props
  unfold pollAttempt
  rw [h1]
  rcases hc : statusIndicatesCompletion v with e | b
  · simp [hc]
  · cases b
    · simp [hc]
    · exact absurd hc h2

/-- C1 (amended): the completion predicate of `pollUntilComplete` is
satisfied exactly when the observed status response's `hasData` field is
truthy and its `status` field is `"completed"` or `"partial"`; on any
satisfying attempt whose subsequent proposals fetch succeeds — including the
final allowed attempt — the poller returns the proposals (partial results are
accepted as terminal); and on any non-satisfying 2xx response the attempt
does not return. -/
theorem c1_completion_predicate :
    (∀ v : JSValue,
       statusIndicatesCompletion v = .ok true ↔
         ∃ h s, getField v "hasData" = .ok h ∧ truthy h = true ∧
           getField v "status" = .ok s ∧
           (strictEqStr s "completed" = true ∨ strictEqStr s "partial" = true)) ∧
    (∀ (env : PollEnv) (i mr r a : Nat) (v p props : JSValue),
       makeRequest (env.statusFetch a) = .ok v →
       statusIndicatesCompletion v = .ok true →
       makeRequest (env.proposalsFetch a) = .ok p →
       getField p "proposals" = .ok props →
       pollLoop env i mr (r + 1) a = ([Ev.statusCall, Ev.proposalsCall], .ok props)) ∧
    (∀ (env : PollEnv) (a : Nat) (v : JSValue),
       makeRequest (env.statusFetch a) = .ok v →
       ¬statusIndicatesCompletion v = .ok true →
       ∀ props, (pollAttempt env a).2 ≠ .ok (some props)) := by
  refine ⟨statusIndicatesCompletion_iff, ?_, pollAttempt_not_complete⟩
  intro env i mr r a v p props h1 h2 h3 h4
  exact pollLoop_return env i mr r a _ props (pollAttempt_of_complete env a v p props h1 h2 h3 h4)

/-- C1 counterexample: the claim's strict predicate (`hasData === true`)
disagrees with the code's completion check on a response whose `hasData` is
the truthy non-boolean `1` (the code treats it as complete, the claimed
predicate does not); and a satisfying attempt does not make the poller
succeed when the subsequent proposals fetch fails — on the final allowed
attempt it raises the timeout error instead. -/
theorem c1_completion_predicate_counterexample :
    statusIndicatesCompletion
        (JSValue.obj [("hasData", JSValue.num 1), ("status", JSValue.str "completed")]) = .ok true ∧
    specCompletionStrict
        (JSValue.obj [("hasData", JSValue.num 1), ("status", JSValue.str "completed")]) = false ∧
    (pollUntilComplete pollEnvPropsFail 1 5).2 = .error timedOutAllMsg :=
  ⟨rfl, rfl, rfl⟩

/-- C1 witness: the amended theorem applied at concrete inputs — a truthy
partial status response satisfies the predicate; a satisfying final attempt
(attempt 29 of 30) returns the proposals; a pending 2xx response never
returns. -/
theorem c1_completion_predicate_witness :
    statusIndicatesCompletion
        (JSValue.obj [("hasData", JSValue.bool true), ("status", JSValue.str "partial")]) = .ok true ∧
    pollLoop pollEnvPartial 10000 30 1 29 =
      ([Ev.statusCall, Ev.proposalsCall], .ok (JSValue.arr [])) ∧
    (pollAttempt pollEnvPending 0).2 ≠ .ok (some (JSValue.arr [])) := by
  refine ⟨?_, ?_, ?_⟩
  · exact (c1_completion_predicate.1 _).mpr
      ⟨JSValue.bool true, JSValue.str "partial", rfl, rfl, rfl, Or.inr rfl⟩
  · exact c1_completion_predicate.2.1 pollEnvPartial 10000 30 0 29
      (JSValue.obj [("hasData", JSValue.bool true), ("status", JSValue.str "partial")])
      (JSValue.obj [("proposals", JSValue.arr [])]) (JSValue.arr []) rfl rfl rfl rfl
  · exact c1_completion_predicate.2.2 pollEnvPending 0
      (JSValue.obj [("hasData", JSValue.bool false)]) rfl
      (fun h => Bool.noConfusion (Except.ok.inj h)) (JSValue.arr [])

theorem pollLoop_all_error (env : PollEnv) (i mr : Nat) :
    ∀ r a, a + r = mr → 1 ≤ r →
      (∀ b, b < mr → ∃ evs e, pollAttempt env b = (evs, .error e)) →
      (pollLoop env i mr r a).2 = .error timedOutAllMsg := by
  intro r
  induction r with
  | zero => intro a h1 h2 _; omega
  | succ r ih =>
    intro a hsum _ hall
    obtain ⟨evs, e, h⟩ := hall a (by omega)
    by_cases hf : a = mr - 1
    · rw [pollLoop_error_final env i mr r a evs e h hf]
    · have hr : 1 ≤ r := by omega
      rw [pollLoop_error_nonfinal env i mr r a evs e h hf]
      exact ih (a + 1) (by omega) hr hall

/-- C2: a polling attempt that raises (network error, non-2xx, or a throwing
check) does not abort the poll: off the final attempt the error is caught and
the loop sleeps the fixed interval and retries; on the final attempt
(`attempt = maxRetries - 1`) the loop raises the timeout error; and when
every attempt fails, the whole poll ends with the timeout error, not the raw
network error. -/
theorem c2_transient_errors :
    (∀ (env : PollEnv) (i mr r a : Nat) (evs : List Ev) (e : String),
       pollAttempt env a = (evs, .error e) → a ≠ mr - 1 →
       pollLoop env i mr (r + 1) a =
         (evs ++ Ev.sleepMs i :: (pollLoop env i mr r (a + 1)).1,
          (pollLoop env i mr r (a + 1)).2)) ∧
    (∀ (env : PollEnv) (i mr r a : Nat) (evs : List Ev) (e : String),
       pollAttempt env a = (evs, .error e) → a = mr - 1 →
       pollLoop env i mr (r + 1) a = (evs, .error timedOutAllMsg)) ∧
    (∀ (env : PollEnv) (i mr : Nat), 1 ≤ mr →
       (∀ b, b < mr → ∃ evs e, pollAttempt env b = (evs, .error e)) →
       (pollUntilComplete env mr i).2 = .error timedOutAllMsg) :=
  ⟨fun env i mr r a evs e h hf => pollLoop_error_nonfinal env i mr r a evs e h hf,
   fun env i mr r a evs e h hf => pollLoop_error_final env i mr r a evs e h hf,
   fun env i mr h1 hall => pollLoop_all_error env i mr mr 0 (by omega) h1 hall⟩

/-- C2 witness: with every fetch failing, attempt 0 of 3 retries after the
sleep, attempt 2 of 3 raises the timeout error, and the whole poll ends with
the timeout error. -/
theorem c2_transient_errors_witness :
    pollLoop pollEnvFailing 5 3 2 0 =
      ([Ev.statusCall] ++ Ev.sleepMs 5 :: (pollLoop pollEnvFailing 5 3 1 1).1,
       (pollLoop pollEnvFailing 5 3 1 1).2) ∧
    pollLoop pollEnvFailing 5 3 1 2 = ([Ev.statusCall], .error timedOutAllMsg) ∧
    (pollUntilComplete pollEnvFailing 3 5).2 = .error timedOutAllMsg := by
  refine ⟨?_, ?_, ?_⟩
  · exact c2_transient_errors.1 pollEnvFailing 5 3 1 0 [Ev.statusCall] "ECONNREFUSED" rfl
      (by decide)
  · exact c2_transient_errors.2.1 pollEnvFailing 5 3 0 2 [Ev.statusCall] "ECONNREFUSED" rfl rfl
  · exact c2_transient_errors.2.2 pollEnvFailing 5 3 (by decide)
      (fun b hb => ⟨[Ev.statusCall], "ECONNREFUSED", rfl⟩)

/-- C3: the poller performs at most `maxRetries` status calls and always
terminates with a returned result or a raised error; every sleep lasts the
configured interval, consecutive status calls are separated by exactly one
sleep (`altCheck`), so the total time slept is at least
`(statusCalls - 1) × interval`; the defaults are 30 attempts and 10000 ms. -/
theorem c3_poll_bounds (env : PollEnv) (mr i : Nat) :
    statusCount (pollUntilComplete env mr i).1 ≤ mr ∧
    sleepsAre i (pollUntilComplete env mr i).1 = true ∧
    altCheck true (keepStatusSleep (pollUntilComplete env mr i).1) = true ∧
    (statusCount (pollUntilComplete env mr i).1 - 1) * i ≤
      sleepTotal (pollUntilComplete env mr i).1 ∧
    ((∃ props, (pollUntilComplete env mr i).2 = .ok props) ∨
      ∃ msg, (pollUntilComplete env mr i).2 = .error msg) ∧
    defaultMaxRetries = 30 ∧ defaultInterval = 10000 := by
  have hpu : pollUntilComplete env mr i = pollLoop env i mr mr 0 := rfl
  obtain ⟨h1, h2, h3, h4⟩ := pollLoop_trace env i mr mr 0
  rw [hpu]
  refine ⟨h1, h2, h3, ?_, ?_, rfl, rfl⟩
  · rw [sleepTotal_of_sleepsAre i _ h2]
    exact Nat.mul_le_mul_right i (by omega)
  · rcases (pollLoop env i mr mr 0).2 with e | props
    · exact Or.inr ⟨e, rfl⟩
    · exact Or.inl ⟨props, rfl⟩

/-- C4: if the first status call reports `hasData: true, status: "completed"`
and the proposals fetch succeeds, the poller performs exactly one status call
and one proposals call, zero sleeps, and returns the `proposals` field of the
results payload. -/
theorem c4_immediate_complete (env : PollEnv) (mr i : Nat) (v p props : JSValue)
    (hmr : 1 ≤ mr)
    (h1 : makeRequest (env.statusFetch 0) = .ok v)
    (h2 : getField v "hasData" = .ok (JSValue.bool true))
    (h3 : getField v "status" = .ok (JSValue.str "completed"))
    (h4 : makeRequest (env.proposalsFetch 0) = .ok p)
    (h5 : getField p "proposals" = .ok props) :
    pollUntilComplete env mr i = ([Ev.statusCall, Ev.proposalsCall], .ok props) := by
  have hc : statusIndicatesCompletion v = .ok true :=
    (statusIndicatesCompletion_iff v).mpr
      ⟨JSValue.bool true, JSValue.str "completed", h2, rfl, h3, Or.inl rfl⟩
  obtain ⟨r, hr⟩ : ∃ r, mr = r + 1 := ⟨mr - 1, by omega⟩
  rw [pollUntilComplete, hr]
  exact pollLoop_return env i (r + 1) r 0 _ props (pollAttempt_of_complete env 0 v p props h1 hc h4 h5)

/-- C4 witness: the theorem applied to an environment that completes on the
first call, at the default 30 retries and 10000 ms interval. -/
theorem c4_immediate_complete_witness :
    pollUntilComplete pollEnvCompleted 30 10000 =
      ([Ev.statusCall, Ev.proposalsCall], .ok (JSValue.arr [])) :=
  c4_immediate_complete pollEnvCompleted 30 10000
    (JSValue.obj [("hasData", JSValue.bool true), ("status", JSValue.str "completed")])
    (JSValue.obj [("proposals", JSValue.arr [])]) (JSValue.arr [])
    (by decide) rfl rfl rfl rfl rfl

/-- C10: a failure of the proposals fetch issued after the completion
predicate is satisfied is handled exactly like a failed status attempt: the
attempt ends in the caught error, off the final attempt the loop sleeps and
re-queries the status endpoint on the next attempt, and only on the final
attempt (`attempt = maxRetries - 1`) does it raise the timeout error; it is
never an immediate fatal error on a non-final attempt. -/
theorem c10_proposals_failure_retry :
    (∀ (env : PollEnv) (a : Nat) (v : JSValue) (e : String),
       makeRequest (env.statusFetch a) = .ok v →
       statusIndicatesCompletion v = .ok true →
       makeRequest (env.proposalsFetch a) = .error e →
       pollAttempt env a = ([Ev.statusCall, Ev.proposalsCall], .error e)) ∧
    (∀ (env : PollEnv) (i mr r a : Nat) (v : JSValue) (e : String),
       makeRequest (env.statusFetch a) = .ok v →
       statusIndicatesCompletion v = .ok true →
       makeRequest (env.proposalsFetch a) = .error e →
       a ≠ mr - 1 →
       pollLoop env i mr (r + 1) a =
         ([Ev.statusCall, Ev.proposalsCall] ++ Ev.sleepMs i :: (pollLoop env i mr r (a + 1)).1,
          (pollLoop env i mr r (a + 1)).2) ∧
       (1 ≤ r → (pollLoop env i mr r (a + 1)).1.head? = some Ev.statusCall)) ∧
    (∀ (env : PollEnv) (i mr r a : Nat) (v : JSValue) (e : String),
       makeRequest (env.statusFetch a) = .ok v →
       statusIndicatesCompletion v = .ok true →
       makeRequest (env.proposalsFetch a) = .error e →
       a = mr - 1 →
       pollLoop env i mr (r + 1) a =
         ([Ev.statusCall, Ev.proposalsCall], .error timedOutAllMsg)) := by
  refine ⟨pollAttempt_proposals_error, ?_, ?_⟩
  · intro env i mr r a v e h1 h2 h3 hf
    refine ⟨pollLoop_error_nonfinal env i mr r a _ e (pollAttempt_proposals_error env a v e h1 h2 h3) hf, ?_⟩
    intro hr
    obtain ⟨s, hs⟩ : ∃ s, r = s + 1 := ⟨r - 1, by omega⟩
    rw [hs]
    exact pollLoop_head env i mr s (a + 1)
  · intro env i mr r a v e h1 h2 h3 hf
    exact pollLoop_error_final env i mr r a _ e (pollAttempt_proposals_error env a v e h1 h2 h3) hf

/-- C10 witness: with a completing status endpoint and a failing proposals
endpoint, attempt 0 of 3 ends in the caught proposals error and retries after
the sleep with a fresh status call, and attempt 2 of 3 raises the timeout
error. -/
theorem c10_proposals_failure_retry_witness :
    pollAttempt pollEnvPropsFail 0 =
      ([Ev.statusCall, Ev.proposalsCall], .error "proposals down") ∧
    pollLoop pollEnvPropsFail 5 3 2 0 =
      ([Ev.statusCall, Ev.proposalsCall] ++ Ev.sleepMs 5 :: (pollLoop pollEnvPropsFail 5 3 1 1).1,
       (pollLoop pollEnvPropsFail 5 3 1 1).2) ∧
    (pollLoop pollEnvPropsFail 5 3 1 1).1.head? = some Ev.statusCall ∧
    pollLoop pollEnvPropsFail 5 3 1 2 =
      ([Ev.statusCall, Ev.proposalsCall], .error timedOutAllMsg) := by
  have hpart := c10_proposals_failure_retry.2.1 pollEnvPropsFail 5 3 1 0
    (JSValue.obj [("hasData", JSValue.bool true), ("status", JSValue.str "completed")])
    "proposals down" rfl rfl rfl (by decide)
  refine ⟨?_, hpart.1, hpart.2 (by decide), ?_⟩
  · exact c10_proposals_failure_retry.1 pollEnvPropsFail 0
      (JSValue.obj [("hasData", JSValue.bool true), ("status", JSValue.str "completed")])
      "proposals down" rfl rfl rfl
  · exact c10_proposals_failure_retry.2.2 pollEnvPropsFail 5 3 0 2
      (JSValue.obj [("hasData", JSValue.bool true), ("status", JSValue.str "completed")])
      "proposals down" rfl rfl rfl rfl

theorem triggerCount_map_pollEv (l : List Ev) :
    triggerCount (l.map MEv.pollEv) = 0 := by
  induction l with
  | nil => rfl
  | cons e rest ih => simp [triggerCount, ih]

theorem triggerCount_append (l1 l2 : List MEv) :
    triggerCount (l1 ++ l2) = triggerCount l1 + triggerCount l2 := by
  induction l1 with
  | nil => simp [triggerCount]
  | cons e rest ih =>
    cases e <;> simp [triggerCount, ih]
    all_goals omega

/-- C5: a non-2xx HTTP status on the single trigger request makes the run
abort immediately with exit code 1 after exactly the one trigger call and
before any polling; and in general every run issues exactly one trigger
call, as its first event. -/
theorem c5_trigger_failure :
    (∀ (env : MainEnv) (st : Nat) (text : String) (body : Body),
       env.triggerFetch = FetchResult.resp st text body → respOk st = false →
       runMain env = ([MEv.triggerCall], .exitCode 1)) ∧
    (∀ env : MainEnv,
       (runMain env).1.head? = some MEv.triggerCall ∧
       triggerCount (runMain env).1 = 1) := by
  constructor
  · intro env st text body ht hok
    unfold runMain
    rw [ht]
    simp [makeRequest, hok]
  · intro env
    unfold runMain
    rcases h1 : makeRequest env.triggerFetch with e | fr
    · simp [h1, triggerCount]
    · rcases h2 : getField fr "success" with e | s
      · simp [h1, h2, triggerCount]
      · rcases h3 : (pollUntilComplete env.poll defaultMaxRetries defaultInterval).2 with e | raw
        · simp [h1, h2, h3, triggerCount, triggerCount_map_pollEv]
        · rcases h4 : (do
              let items ← asArray raw
              transformData env.timestamp items : Except String TransformedData) with e | doc
          · simp [h1, h2, h3, h4, triggerCount, triggerCount_map_pollEv]
          · by_cases hw : env.writeSucceeds
            · simp [h1, h2, h3, h4, hw, triggerCount, triggerCount_append,
                    triggerCount_map_pollEv]
            · simp [h1, h2, h3, h4, hw, triggerCount, triggerCount_append,
                    triggerCount_map_pollEv]

/-- C5 witness: the theorem applied to a run whose trigger call gets an
HTTP 500: the run is one trigger call and exit code 1. -/
theorem c5_trigger_failure_witness :
    runMain mainEnvTriggerFail = ([MEv.triggerCall], .exitCode 1) ∧
    (runMain mainEnvTriggerFail).1.head? = some MEv.triggerCall ∧
    triggerCount (runMain mainEnvTriggerFail).1 = 1 := by
  refine ⟨?_, c5_trigger_failure.2 mainEnvTriggerFail⟩
  exact c5_trigger_failure.1 mainEnvTriggerFail 500 "Internal Server Error" Body.empty rfl rfl

theorem transformList_spec : ∀ (raw : List JSValue) (l : List TransformedProject),
    transformList raw = .ok l →
    l.length = raw.length ∧
    ∀ i (hi : i < raw.length) (hl : i < l.length),
      transformProject (raw.get ⟨i, hi⟩) = .ok (l.get ⟨i, hl⟩) := by
  intro raw
  induction raw with
  | nil =>
    intro l h
    simp [transformList] at h
    subst h
    exact ⟨rfl, fun i hi => by simp at hi⟩
  | cons p rest ih =>
    intro l h
    rcases hp : transformProject p with e | tp
    · simp [transformList, hp, Bind.bind, Except.bind] at h
    · rcases hr : transformList rest with e | tl
      · simp [transformList, hp, hr, Bind.bind, Except.bind] at h
      · simp [transformList, hp, hr, Bind.bind, Except.bind, pure, Except.pure] at h
        subst h
        obtain ⟨hlen, hidx⟩ := ih tl hr
        refine ⟨by simp [hlen], ?_⟩
        intro i hi hl
        cases i with
        | zero => simpa using hp
        | succ j =>
          have hj : j < rest.length := by simpa using hi
          have hj2 : j < tl.length := by simpa using hl
          simpa using hidx j hj hj2

theorem projectDetailsOf_keys (p : JSValue) (d : List (String × JSValue))
    (h : projectDetailsOf p = .ok d) :
    d.map Prod.fst = projectDetailKeys := by
  cases p with
  | undefined => simp [projectDetailsOf, getField, Bind.bind, Except.bind] at h
  | null => simp [projectDetailsOf, getField, Bind.bind, Except.bind] at h
  | bool b =>
    simp [projectDetailsOf, getField, Bind.bind, Except.bind, pure, Except.pure] at h
    subst h; rfl
  | num n =>
    simp [projectDetailsOf, getField, Bind.bind, Except.bind, pure, Except.pure] at h
    subst h; rfl
  | str s =>
    simp [projectDetailsOf, getField, Bind.bind, Except.bind, pure, Except.pure] at h
    subst h; rfl
  | arr items =>
    simp [projectDetailsOf, getField, Bind.bind, Except.bind, pure, Except.pure] at h
    subst h; rfl
  | obj fields =>
    simp [projectDetailsOf, getField, Bind.bind, Except.bind, pure, Except.pure] at h
    subst h; rfl

theorem transformProject_keys (p : JSValue) (tp : TransformedProject)
    (h : transformProject p = .ok tp) :
    tp.projectDetails.map Prod.fst = projectDetailKeys := by
  rcases hm : milestonesCompletedOf p with e | mc
  · simp [transformProject, hm, Bind.bind, Except.bind] at h
  · rcases hd : projectDetailsOf p with e | d
    · simp [transformProject, hm, hd, Bind.bind, Except.bind] at h
    · simp [transformProject, hm, hd, Bind.bind, Except.bind, pure, Except.pure] at h
      rw [← h]
      exact projectDetailsOf_keys p d hd

theorem milestonesCompletedOf_fallback (p a b : JSValue)
    (ha : getField p "milestones_completed" = .ok a) (hta : truthy a = false)
    (hb : getField p "completed_milestones" = .ok b) :
    milestonesCompletedOf p = .ok (if truthy b then b else JSValue.num 0) := by
  unfold milestonesCompletedOf
  simp [ha, hta, hb, Bind.bind, Except.bind, pure, Except.pure]
  by_cases htb : truthy b = true <;> simp [htb]

/-- C6: `transformData` maps each raw record independently and
order-preserving (same length, the i-th output comes from the i-th input),
retains exactly the enumerated `projectDetails` field names (unknown fields
are dropped), and the two-key milestone fallback yields 3 for
`{id:1, title:"A", milestones_completed:3}` and 0 when neither key is
present. -/
theorem c6_transform_shape :
    (∀ (ts : String) (raw : List JSValue) (doc : TransformedData),
       transformData ts raw = .ok doc →
       doc.projects.length = raw.length ∧
       ∀ i (hi : i < raw.length) (hl : i < doc.projects.length),
         transformProject (raw.get ⟨i, hi⟩) = .ok (doc.projects.get ⟨i, hl⟩)) ∧
    (∀ (p : JSValue) (tp : TransformedProject),
       transformProject p = .ok tp →
       tp.projectDetails.map Prod.fst = projectDetailKeys) ∧
    Except.map TransformedProject.milestonesCompleted (transformProject sampleRecord) =
      .ok (JSValue.num 3) ∧
    Except.map TransformedProject.milestonesCompleted
        (transformProject (JSValue.obj [("id", JSValue.num 1), ("title", JSValue.str "A")])) =
      .ok (JSValue.num 0) := by
  refine ⟨?_, transformProject_keys, rfl, rfl⟩
  intro ts raw doc hd
  rcases h : transformList raw with e | l
  · simp [transformData, h, Bind.bind, Except.bind] at hd
  · simp [transformData, h, Bind.bind, Except.bind, pure, Except.pure] at hd
    rw [← hd]
    exact transformList_spec raw l h

/-- C6 witness: the theorem applied to the one-record list `[sampleRecord]`
and its concrete transform. -/
theorem c6_transform_shape_witness :
    (⟨"2024-01-01T00:00:00.000Z", [sampleTransformed]⟩ : TransformedData).projects.length =
      [sampleRecord].length ∧
    sampleTransformed.projectDetails.map Prod.fst = projectDetailKeys :=
  ⟨(c6_transform_shape.1 "2024-01-01T00:00:00.000Z" [sampleRecord]
      ⟨"2024-01-01T00:00:00.000Z", [sampleTransformed]⟩ rfl).1,
   c6_transform_shape.2.1 sampleRecord sampleTransformed rfl⟩

/-- C7: `transformData` is deterministic modulo the timestamp: two transforms
of the same raw sequence produce identical `projects` (the whole normalized
output except the `timestamp` field), and the output's `timestamp` is exactly
the wall-clock string observed at transform time. -/
theorem c7_transform_deterministic (t1 t2 : String) (raw : List JSValue) :
    Except.map TransformedData.projects (transformData t1 raw) =
      Except.map TransformedData.projects (transformData t2 raw) ∧
    ∀ doc, transformData t1 raw = .ok doc → doc.timestamp = t1 := by
  constructor
  · rcases h : transformList raw with e | l <;>
      simp [transformData, h, Bind.bind, Except.bind, Except.map, pure, Except.pure]
  · intro doc hd
    rcases h : transformList raw with e | l
    · simp [transformData, h, Bind.bind, Except.bind] at hd
    · simp [transformData, h, Bind.bind, Except.bind, pure, Except.pure] at hd
      rw [← hd]

/-- C7 witness: the theorem applied at two distinct timestamps and a concrete
record list. -/
theorem c7_transform_deterministic_witness :
    Except.map TransformedData.projects (transformData "tA" [sampleRecord]) =
      Except.map TransformedData.projects (transformData "tB" [sampleRecord]) ∧
    (⟨"tA", [sampleTransformed]⟩ : TransformedData).timestamp = "tA" :=
  ⟨(c7_transform_deterministic "tA" "tB" [sampleRecord]).1,
   (c7_transform_deterministic "tA" "tB" [sampleRecord]).2 ⟨"tA", [sampleTransformed]⟩ rfl⟩

/-- C9: the two-key milestone fallback uses JavaScript truthiness, not field
presence: whenever `milestones_completed` reads as a falsy value (such as 0),
the value of `completed_milestones` (or 0) is taken instead; in particular
`{milestones_completed: 0, completed_milestones: 5}` yields
`milestonesCompleted = 5`. -/
theorem c9_milestones_truthiness :
    (∀ (p a b : JSValue),
       getField p "milestones_completed" = .ok a → truthy a = false →
       getField p "completed_milestones" = .ok b →
       milestonesCompletedOf p = .ok (if truthy b then b else JSValue.num 0)) ∧
    milestonesCompletedOf
        (JSValue.obj [("milestones_completed", JSValue.num 0),
                      ("completed_milestones", JSValue.num 5)]) = .ok (JSValue.num 5) ∧
    Except.map TransformedProject.milestonesCompleted
        (transformProject (JSValue.obj [("milestones_completed", JSValue.num 0),
                                        ("completed_milestones", JSValue.num 5)])) =
      .ok (JSValue.num 5) :=
  ⟨milestonesCompletedOf_fallback, rfl, rfl⟩

/-- C9 witness: the fallback theorem applied to the concrete record
`{milestones_completed: 0, completed_milestones: 5}`. -/
theorem c9_milestones_truthiness_witness :
    milestonesCompletedOf
        (JSValue.obj [("milestones_completed", JSValue.num 0),
                      ("completed_milestones", JSValue.num 5)]) =
      .ok (if truthy (JSValue.num 5) then JSValue.num 5 else JSValue.num 0) :=
  c9_milestones_truthiness.1
    (JSValue.obj [("milestones_completed", JSValue.num 0),
                  ("completed_milestones", JSValue.num 5)])
    (JSValue.num 0) (JSValue.num 5) rfl rfl rfl

theorem hexVal_hexDigit : ∀ n, n < 16 → hexVal (hexDigit n) = some n := by decide

theorem char_toNat_lt (c : Char) : c.toNat < 1114112 := by
  have h := c.valid
  unfold Char.toNat
  rcases h with h | ⟨h1, h2⟩ <;> omega

theorem percentDecodeBytes_percentByte (b : Nat) (hb : b < 256) (cs : List Char) :
    percentDecodeBytes (percentByte b ++ cs) =
      Option.map (fun bs => b :: bs) (percentDecodeBytes cs) := by
  have h1 : hexVal (hexDigit (b / 16)) = some (b / 16) := hexVal_hexDigit _ (by omega)
  have h2 : hexVal (hexDigit (b % 16)) = some (b % 16) := hexVal_hexDigit _ (by omega)
  have h37 : (Char.ofNat 37).toNat = 37 := by decide
  simp [percentByte, percentDecodeBytes, h37, h1, h2]
  rcases percentDecodeBytes cs with _ | bs <;> simp
  omega

theorem utf8Bytes_lt (n : Nat) (hn : n < 1114112) : ∀ b ∈ utf8Bytes n, b < 256 := by
  intro b hb
  unfold utf8Bytes at hb
  by_cases h1 : n < 128
  · simp [h1] at hb; omega
  · by_cases h2 : n < 2048
    · simp [h1, h2] at hb
      rcases hb with hb | hb <;> omega
    · by_cases h3 : n < 65536
      · simp [h1, h2, h3] at hb
        rcases hb with hb | hb | hb <;> omega
      · simp [h1, h2, h3] at hb
        rcases hb with hb | hb | hb | hb <;> omega

theorem percentDecodeBytes_encodeBytes (bs : List Nat) (h : ∀ b ∈ bs, b < 256)
    (cs : List Char) :
    percentDecodeBytes (percentEncodeBytes bs ++ cs) =
      Option.map (fun tl => bs ++ tl) (percentDecodeBytes cs) := by
  induction bs with
  | nil =>
    simp [percentEncodeBytes]
  | cons b rest ih =>
    have hb : b < 256 := h b (by simp)
    have hrest : ∀ x ∈ rest, x < 256 := fun x hx => h x (by simp [hx])
    rw [percentEncodeBytes, List.append_assoc, percentDecodeBytes_percentByte b hb,
        ih hrest]
    rcases percentDecodeBytes cs with _ | tl <;> simp

theorem utf8Run_utf8Bytes (n : Nat) (hn : n < 1114112) (acc : List Nat) (bs : List Nat) :
    utf8Run acc 0 0 (utf8Bytes n ++ bs) = utf8Run (n :: acc) 0 0 bs := by
  by_cases h1 : n < 128
  · rw [utf8Bytes, if_pos h1, List.cons_append, List.nil_append, utf8Run,
        if_pos rfl, if_pos h1]
  · by_cases h2 : n < 2048
    · rw [utf8Bytes, if_neg h1, if_pos h2, List.cons_append, List.cons_append,
          List.nil_append, utf8Run]
      rw [if_pos rfl, if_neg (by omega), if_neg (by omega), if_pos (by omega), utf8Run]
      rw [if_neg (by omega), if_pos (by constructor <;> omega), if_pos rfl]
      have hv : (192 + n / 64 - 192) * 64 + (128 + n % 64 - 128) = n := by omega
      rw [hv]
    · by_cases h3 : n < 65536
      · rw [utf8Bytes, if_neg h1, if_neg h2, if_pos h3, List.cons_append, List.cons_append,
            List.cons_append, List.nil_append, utf8Run]
        rw [if_pos rfl, if_neg (by omega), if_neg (by omega), if_neg (by omega),
            if_pos (by omega), utf8Run]
        rw [if_neg (by omega), if_pos (by constructor <;> omega), if_neg (by omega), utf8Run]
        rw [if_neg (by omega), if_pos (by constructor <;> omega), if_pos (by omega)]
        have hv : ((224 + n / 4096 - 224) * 64 + (128 + n / 64 % 64 - 128)) * 64 +
            (128 + n % 64 - 128) = n := by omega
        rw [hv]
      · rw [utf8Bytes, if_neg h1, if_neg h2, if_neg h3, List.cons_append, List.cons_append,
            List.cons_append, List.cons_append, List.nil_append, utf8Run]
        rw [if_pos rfl, if_neg (by omega), if_neg (by omega), if_neg (by omega),
            if_neg (by omega), if_pos (by omega), utf8Run]
        rw [if_neg (by omega), if_pos (by constructor <;> omega), if_neg (by omega), utf8Run]
        rw [if_neg (by omega), if_pos (by constructor <;> omega), if_neg (by omega), utf8Run]
        rw [if_neg (by omega), if_pos (by constructor <;> omega), if_pos (by omega)]
        have hv : (((240 + n / 262144 - 240) * 64 + (128 + n / 4096 % 64 - 128)) * 64 +
            (128 + n / 64 % 64 - 128)) * 64 + (128 + n % 64 - 128) = n := by omega
        rw [hv]

theorem isUnreservedURI_ne37 (c : Char) (hu : isUnreservedURI c = true) :
    (c.toNat == 37) = false := by
  unfold isUnreservedURI at hu
  simp only [Bool.or_eq_true, Bool.and_eq_true, decide_eq_true_eq, beq_iff_eq] at hu
  simp only [beq_eq_false_iff_ne, ne_eq]
  omega

theorem percentDecodeBytes_encodeChar (c : Char) (cs : List Char) :
    percentDecodeBytes (encodeChar c ++ cs) =
      Option.map (fun bs => utf8Bytes c.toNat ++ bs) (percentDecodeBytes cs) := by
  by_cases hu : isUnreservedURI c = true
  · have h37 := isUnreservedURI_ne37 c hu
    rw [encodeChar, if_pos hu, List.cons_append, List.nil_append, percentDecodeBytes.eq_def]
    simp only [h37, Bool.false_eq_true, if_false]
    rcases percentDecodeBytes cs with _ | bs <;> simp
  · rw [encodeChar, if_neg hu]
    exact percentDecodeBytes_encodeBytes _ (utf8Bytes_lt c.toNat (char_toNat_lt c)) cs

theorem percentDecodeBytes_encodeList (l : List Char) (cs : List Char) :
    percentDecodeBytes (encodeList l ++ cs) =
      Option.map (fun bs => utf8OfChars l ++ bs) (percentDecodeBytes cs) := by
  induction l with
  | nil => simp [encodeList, utf8OfChars]
  | cons c rest ih =>
    rw [encodeList, List.append_assoc, percentDecodeBytes_encodeChar, ih]
    rcases percentDecodeBytes cs with _ | bs <;> simp [utf8OfChars]

theorem utf8Run_utf8OfChars (l : List Char) (acc : List Nat) :
    utf8Run acc 0 0 (utf8OfChars l) = some (acc.reverse ++ l.map Char.toNat) := by
  induction l generalizing acc with
  | nil => simp [utf8OfChars, utf8Run]
  | cons c rest ih =>
    rw [utf8OfChars, utf8Run_utf8Bytes c.toNat (char_toNat_lt c), ih]
    simp

theorem char_ofNat_toNat (c : Char) : Char.ofNat c.toNat = c := by
  have hval : c.toNat.isValidChar := c.valid
  unfold Char.ofNat
  rw [dif_pos hval]
  apply Char.ext
  apply UInt32.ext
  simp [Char.ofNatAux, Char.toNat, UInt32.toNat, BitVec.toNat_ofNatLt]

theorem decodeURIComponent_encodeURIComponent (s : String) :
    decodeURIComponent (encodeURIComponent s) = some s := by
  have h1 : percentDecodeBytes (encodeList s.data) = some (utf8OfChars s.data) := by
    have h := percentDecodeBytes_encodeList s.data []
    rw [List.append_nil] at h
    simpa [percentDecodeBytes] using h
  have h2 : utf8Decode (utf8OfChars s.data) = some (s.data.map Char.toNat) := by
    rw [utf8Decode, utf8Run_utf8OfChars]
    simp
  have h3 : (s.data.map Char.toNat).map Char.ofNat = s.data := by
    rw [List.map_map]
    have hc : ∀ x ∈ s.data, (Char.ofNat ∘ Char.toNat) x = x := fun x _ => char_ofNat_toNat x
    rw [List.map_congr_left hc]
    simp
  unfold decodeURIComponent encodeURIComponent
  have hd : (String.mk (encodeList s.data)).data = encodeList s.data := rfl
  rw [hd, h1]
  simp only [h2, h3]

/-- C8: the identifier parameter encoded into the trigger request round-trips:
decoding the query-encoded parameter recovers the comma-separated input, so
its split-by-comma list equals the input's; the body-encoded variant carries
`projectIds.split(',')` verbatim; and the query-encoded trigger URL is the
trigger endpoint plus `?projectIds=` plus the encoded identifier string. -/
theorem c8_ids_roundtrip (ids : String) :
    decodeURIComponent (encodeURIComponent ids) = some ids ∧
    Option.map (fun s => s.splitOn ",") (decodeURIComponent (encodeURIComponent ids)) =
      some (ids.splitOn ",") ∧
    triggerBodyProjectIds ids = ids.splitOn "," ∧
    triggerUrlWithParams ids = triggerUrl ++ "?projectIds=" ++ encodeURIComponent ids := by
  refine ⟨decodeURIComponent_encodeURIComponent ids, ?_, rfl, rfl⟩
  rw [decodeURIComponent_encodeURIComponent ids]
  rfl
